import Mathlib

/-!
Shallow embedding of the libcni plugin-chain driver (libcni/api.go).

JSON documents are modelled as association lists from keys to a small
JSON value type.  The plugin transport, the on-disk cache and the gRPC
peer are modelled as explicit inputs (functions and state values), so
every driver operation is a pure function of its inputs that also
returns a trace of the observable actions it performed (plugin
dispatches, cache reads, cache delete attempts).

Definitions marked "Modelled from the spec" embed code of this
repository that is not present under src (the Config Editor InjectConf
and the version registry); everything else is translated directly from
src/libcni/api.go.
-/

/-- A JSON value, as produced by unmarshalling a configuration document
or a plugin result. -/
inductive JVal where
  | null
  | bool (b : Bool)
  | num (n : Nat)
  | str (s : String)
  | arr (elems : List JVal)
  | obj (fields : List (String × JVal))

/-- A JSON object document: the unmarshalled form of a configuration. -/
abbrev Doc := List (String × JVal)

mutual

/-- JSON serialization of a value (json.Marshal; key order is kept as in
the association list, escaping is not modelled). -/
def serialize : JVal → String
  | .null => "null"
  | .bool b => if b then "true" else "false"
  | .num n => toString n
  | .str s => "\"" ++ s ++ "\""
  | .arr es => "[" ++ serializeElems es ++ "]"
  | .obj fs => "\x7b" ++ serializeFields fs ++ "\x7d"

/-- Serialization of the elements of a JSON array, comma separated. -/
def serializeElems : List JVal → String
  | [] => ""
  | [v] => serialize v
  | v :: rest => serialize v ++ "," ++ serializeElems rest

/-- Serialization of the fields of a JSON object, comma separated. -/
def serializeFields : List (String × JVal) → String
  | [] => ""
  | [(k, v)] => "\"" ++ k ++ "\":" ++ serialize v
  | (k, v) :: rest => "\"" ++ k ++ "\":" ++ serialize v ++ "," ++ serializeFields rest

end

/-- Errors surfaced by the driver (error kinds, not Go type names). -/
inductive Err where
  | versionUnsupported (version : String)
  | versionParse (version : String)
  | pluginFailed (msg : String)
  | ioError (msg : String)
  | wrapped (context : String) (inner : Err)
deriving DecidableEq

/-- First-match lookup in an association list keyed by strings (the
read side of a Go map). -/
def getKey {α : Type} : List (String × α) → String → Option α
  | [], _ => none
  | (k, w) :: rest, key => if k = key then some w else getKey rest key

/-- Key assignment in an association list (the write side of a Go map):
every prior binding of the key is dropped and the new binding appended. -/
def setKey {α : Type} : List (String × α) → String → α → List (String × α)
  | [], key, v => [(key, v)]
  | (k, w) :: rest, key, v =>
    if k = key then setKey rest key v else (k, w) :: setKey rest key v

/-- The structured view of a single plugin configuration
(types.NetConf: the fields the driver reads). -/
structure NetConf where
  name : String
  cniVersion : String
  pluginType : String
  capabilities : List (String × Bool)

/-- NetworkConfig: the structured view paired with the document form
that is handed to the plugin. -/
structure NetworkConfig where
  network : NetConf
  bytes : Doc

/-- NetworkConfigList: an ordered plugin chain sharing a name and
version. -/
structure NetworkConfigList where
  name : String
  cniVersion : String
  disableCheck : Bool
  plugins : List NetworkConfig

/-- RuntimeConf: the per-invocation runtime arguments. -/
structure RuntimeConf where
  containerID : String
  netNS : String
  ifName : String
  args : List (String × String)
  capabilityArgs : List (String × JVal)
  cacheDir : String

/-- Reads the capabilities map of a document field (json unmarshal into
map string to bool keeps only boolean values here). -/
def parseCapabilities : Option JVal → List (String × Bool)
  | some (.obj fields) =>
    fields.filterMap (fun kv =>
      match kv.2 with
      | .bool b => some (kv.1, b)
      | _ => none)
  | _ => []

/-- Reads a string field of a document, defaulting to the empty string
(the Go zero value). -/
def parseStr (v : Option JVal) : String :=
  match v with
  | some (.str s) => s
  | _ => ""

/-- Re-parses the structured view of a configuration from its document
form (ConfFromBytes). -/
def parseNetConf (d : Doc) : NetConf :=
  { name := parseStr (getKey d "name"),
    cniVersion := parseStr (getKey d "cniVersion"),
    pluginType := parseStr (getKey d "type"),
    capabilities := parseCapabilities (getKey d "capabilities") }

/-- Modelled from the spec: InjectConf of the Config Editor (libcni
configuration handling, absent from src).  Sets each overlay key at top
level of the document, overwriting collisions, and re-parses the
structured view from the new document; the original is not mutated. -/
def injectConf (orig : NetworkConfig) (overlay : Doc) : NetworkConfig :=
  let newBytes := overlay.foldl (fun d kv => setKey d kv.1 kv.2) orig.bytes
  { network := parseNetConf newBytes, bytes := newBytes }

/-- The capability filtering loop of injectRuntimeConfig: keeps a
capability argument exactly when the capability is mapped to true in the
plugin capabilities and the runtime supplies a value for it. -/
def capabilityFilter (caps : List (String × Bool)) (capArgs : List (String × JVal)) :
    List (String × JVal) :=
  match caps with
  | [] => []
  | (capName, supported) :: rest =>
    if supported then
      match getKey capArgs capName with
      | some data => (capName, data) :: capabilityFilter rest capArgs
      | none => capabilityFilter rest capArgs
    else capabilityFilter rest capArgs

/-- injectRuntimeConfig: builds the filtered runtimeConfig map and
injects it into the document exactly when it is non-empty. -/
def injectRuntimeConfig (orig : NetworkConfig) (rt : RuntimeConf) : NetworkConfig :=
  let rc := capabilityFilter orig.network.capabilities rt.capabilityArgs
  if rc.isEmpty then orig else injectConf orig [("runtimeConfig", JVal.obj rc)]

/-- buildOneConfig: derives the per-plugin document by injecting the
list name and version, the previous result when non-null, and the
filtered runtime configuration. -/
def buildOneConfig (name cniVersion : String) (orig : NetworkConfig)
    (prevResult : Option JVal) (rt : RuntimeConf) : NetworkConfig :=
  let overlay : Doc :=
    [("name", JVal.str name), ("cniVersion", JVal.str cniVersion)] ++
      (match prevResult with
       | some r => [("prevResult", r)]
       | none => [])
  injectRuntimeConfig (injectConf orig overlay) rt

/-- Splits a character list on dots (the version string separator). -/
def splitOnDot (cs : List Char) : List (List Char) :=
  match cs with
  | [] => [[]]
  | c :: rest =>
    let parts := splitOnDot rest
    if c = '.' then [] :: parts
    else
      match parts with
      | [] => [[c]]
      | p :: ps => (c :: p) :: ps

/-- Parses a non-empty run of decimal digits. -/
def parseNatPart (cs : List Char) : Option Nat :=
  match cs with
  | [] => none
  | _ =>
    cs.foldl (fun acc c =>
      match acc with
      | none => none
      | some n => if c.isDigit then some (n * 10 + (c.toNat - 48)) else none)
      (some 0)

/-- Modelled from the spec: version string parsing of the version
registry (pkg/version, absent from src): one to three dot separated
decimal components, missing components read as zero. -/
def parseVersion (s : String) : Option (Nat × Nat × Nat) :=
  match (splitOnDot s.toList).map parseNatPart with
  | [some major] => some (major, 0, 0)
  | [some major, some minor] => some (major, minor, 0)
  | [some major, some minor, some micro] => some (major, minor, micro)
  | _ => none

/-- Lexicographic greater-or-equal on parsed version triples. -/
def versionGE (a b : Nat × Nat × Nat) : Bool :=
  if a.1 ≠ b.1 then decide (a.1 > b.1)
  else if a.2.1 ≠ b.2.1 then decide (a.2.1 > b.2.1)
  else decide (a.2.2 ≥ b.2.2)

/-- Modelled from the spec: version.GreaterThanOrEqualTo of the version
registry (absent from src): parses both version strings, failing on an
unparsable one, and compares. -/
def greaterThanOrEqualTo (v minVersion : String) : Except Err Bool :=
  match parseVersion v with
  | none => .error (.versionParse v)
  | some a =>
    match parseVersion minVersion with
    | none => .error (.versionParse minVersion)
    | some b => .ok (versionGE a b)

/-- An observable driver action: a plugin dispatch with the derived
document and the previous result it carried, a cache read, or a cache
delete attempt. -/
inductive Event where
  | dispatched (command : String) (conf : Doc) (prevResult : Option JVal)
  | cacheRead
  | cacheDeleteAttempted

/-- The derived documents of the dispatch events of a trace, in
dispatch order. -/
def dispatchDocs (evs : List Event) : List Doc :=
  evs.filterMap (fun ev =>
    match ev with
    | .dispatched _ conf _ => some conf
    | _ => none)

/-- The file system state seen by the result cache: directories and
files with their modes, plus an injectable I/O fault that makes every
directory creation and file write fail. -/
structure FS where
  dirs : List (String × Nat)
  files : List (String × (String × Nat))
  ioErr : Option Err

/-- The default cache root directory. -/
def CacheDir : String := "/var/lib/cni"

/-- getResultCacheFilePath: the deterministic cache key (filepath.Join
modelled as separator concatenation of already clean components). -/
def getResultCacheFilePath (netName : String) (rt : RuntimeConf) : String :=
  let cacheDir := if rt.cacheDir = "" then CacheDir else rt.cacheDir
  cacheDir ++ "/results/" ++ netName ++ "-" ++ rt.containerID ++ "-" ++ rt.ifName

/-- filepath.Dir: the path with its final slash separated component
removed. -/
def dirOf (p : String) : String :=
  match p.toList.reverse.dropWhile (fun c => c ≠ '/') with
  | [] => "."
  | _ :: rest => String.mk rest.reverse

/-- os.MkdirAll: creates the directory with the given mode when it is
missing; idempotent when it exists. -/
def mkdirAll (fs : FS) (dir : String) (mode : Nat) : Except Err FS :=
  match fs.ioErr with
  | some e => .error e
  | none =>
    match getKey fs.dirs dir with
    | some _ => .ok fs
    | none => .ok { fs with dirs := setKey fs.dirs dir mode }

/-- ioutil.WriteFile: overwrites the data of an existing file keeping
its mode, or creates the file with the given mode. -/
def writeFileFS (fs : FS) (path : String) (data : String) (mode : Nat) : Except Err FS :=
  match fs.ioErr with
  | some e => .error e
  | none =>
    match getKey fs.files path with
    | some fm => .ok { fs with files := setKey fs.files path (data, fm.2) }
    | none => .ok { fs with files := setKey fs.files path (data, mode) }

/-- json.Marshal of a possibly nil result: a nil interface marshals to
the four bytes null. -/
def marshalResult : Option JVal → String
  | none => "null"
  | some v => serialize v

/-- setCachedResult: serializes the result, creates the parent
directory with mode 0700 when missing, and writes the cache file with
mode 0600. -/
def setCachedResult (fs : FS) (result : Option JVal) (netName : String) (rt : RuntimeConf) :
    Except Err FS :=
  let data := marshalResult result
  let fname := getResultCacheFilePath netName rt
  match mkdirAll fs (dirOf fname) 0o700 with
  | .error e => .error e
  | .ok fs2 => writeFileFS fs2 fname data 0o600

/-- The outcome of reading the cache file (ioutil.ReadFile): the data,
or a file-does-not-exist failure, or any other read failure. -/
inductive ReadOutcome where
  | ok (data : String)
  | errNotExist
  | errOther

/-- The version registry operations getCachedResult consumes
(pkg/version ConfigDecoder.Decode, version.NewResult, and
Result.GetAsVersion), taken as inputs since that code is outside the
driver.  GetAsVersion returns a Go pair of a possibly nil result and a
possibly nil error. -/
structure VersionOps where
  decode : String → Except Err String
  newResult : String → String → Except Err JVal
  getAsVersion : JVal → String → Option JVal × Option Err

/-- getCachedResult: reads the cache file, treating every read failure
as absence; decodes the stored version; constructs the stored result;
converts it to the requested version, wrapping the conversion error
only when the stored version differs from the requested one.  The Go
return is a pair of a possibly nil result and a possibly nil error. -/
def getCachedResult (ops : VersionOps) (readRes : ReadOutcome) (cniVersion : String) :
    Option JVal × Option Err :=
  match readRes with
  | .errNotExist => (none, none)
  | .errOther => (none, none)
  | .ok data =>
    match ops.decode data with
    | .error e => (none, some e)
    | .ok resultCniVersion =>
      match ops.newResult resultCniVersion data with
      | .error e => (none, some e)
      | .ok result =>
        match ops.getAsVersion result cniVersion with
        | (result2, some e) =>
          if resultCniVersion ≠ cniVersion then
            (none, some (.wrapped "failed to convert cached result" e))
          else (result2, some e)
        | (result2, none) => (result2, none)

/-- The ADD walk of AddNetworkList: each plugin receives the derived
document built from the accumulated previous result, and the first
plugin error aborts the walk. -/
def addLoop (exec : Doc → Except Err JVal) (name cniVersion : String)
    (plugins : List NetworkConfig) (prev : Option JVal) (rt : RuntimeConf) :
    Except Err (Option JVal) × List Event :=
  match plugins with
  | [] => (.ok prev, [])
  | net :: rest =>
    let conf := buildOneConfig name cniVersion net prev rt
    match exec conf.bytes with
    | .error e => (.error e, [.dispatched "ADD" conf.bytes prev])
    | .ok r =>
      let out := addLoop exec name cniVersion rest (some r) rt
      (out.1, .dispatched "ADD" conf.bytes prev :: out.2)

/-- AddNetworkList: walks the plugins forward threading the result,
then caches the final result, propagating a cache write failure as a
wrapped error. -/
def addNetworkList (exec : Doc → Except Err JVal) (list : NetworkConfigList)
    (rt : RuntimeConf) (fs : FS) : Except Err (Option JVal) × FS × List Event :=
  match addLoop exec list.name list.cniVersion list.plugins none rt with
  | (.error e, evs) => (.error e, fs, evs)
  | (.ok result, evs) =>
    match setCachedResult fs result list.name rt with
    | .error e => (.error (.wrapped "failed to set cached result" e), fs, evs)
    | .ok fs2 => (.ok result, fs2, evs)

/-- The derived documents dispatched by an AddNetworkList run, in
dispatch order. -/
def addTrace (exec : Doc → Except Err JVal) (list : NetworkConfigList)
    (rt : RuntimeConf) (fs : FS) : List Doc :=
  dispatchDocs (addNetworkList exec list rt fs).2.2

/-- The CHECK walk of CheckNetworkList: every plugin receives the same
cached result, and the first error aborts. -/
def checkLoop (checkExec : Doc → Except Err Unit) (name cniVersion : String)
    (plugins : List NetworkConfig) (cached : Option JVal) (rt : RuntimeConf) :
    Except Err Unit × List Event :=
  match plugins with
  | [] => (.ok (), [])
  | net :: rest =>
    let conf := buildOneConfig name cniVersion net cached rt
    match checkExec conf.bytes with
    | .error e => (.error e, [.dispatched "CHECK" conf.bytes cached])
    | .ok _ =>
      let out := checkLoop checkExec name cniVersion rest cached rt
      (out.1, .dispatched "CHECK" conf.bytes cached :: out.2)

/-- CheckNetworkList: gates on version at least 0.4.0, returns success
at once when the list disables CHECK, otherwise reads the cached result
and walks the plugins forward with it. -/
def checkNetworkList (checkExec : Doc → Except Err Unit)
    (cacheGet : Except Err (Option JVal)) (list : NetworkConfigList) (rt : RuntimeConf) :
    Except Err Unit × List Event :=
  match greaterThanOrEqualTo list.cniVersion "0.4.0" with
  | .error e => (.error e, [])
  | .ok false => (.error (.versionUnsupported list.cniVersion), [])
  | .ok true =>
    if list.disableCheck then (.ok (), [])
    else
      match cacheGet with
      | .error e => (.error (.wrapped "failed to get cached result" e), [.cacheRead])
      | .ok cached =>
        let out := checkLoop checkExec list.name list.cniVersion list.plugins cached rt
        (out.1, .cacheRead :: out.2)

/-- The DEL walk of DelNetworkList over the already reversed plugin
sequence: every plugin receives the same cached result, and the first
error aborts. -/
def delLoop (delExec : Doc → Except Err Unit) (name cniVersion : String)
    (plugins : List NetworkConfig) (cached : Option JVal) (rt : RuntimeConf) :
    Except Err Unit × List Event :=
  match plugins with
  | [] => (.ok (), [])
  | net :: rest =>
    let conf := buildOneConfig name cniVersion net cached rt
    match delExec conf.bytes with
    | .error e => (.error e, [.dispatched "DEL" conf.bytes cached])
    | .ok _ =>
      let out := delLoop delExec name cniVersion rest cached rt
      (out.1, .dispatched "DEL" conf.bytes cached :: out.2)

/-- The tail of DelNetworkList: runs the reverse DEL walk, and on full
success attempts the cache delete, discarding its outcome. -/
def delRun (delExec : Doc → Except Err Unit) (cacheDelete : Except Err Unit)
    (list : NetworkConfigList) (cached : Option JVal) (rt : RuntimeConf)
    (evs0 : List Event) : Except Err Unit × List Event :=
  let out := delLoop delExec list.name list.cniVersion list.plugins.reverse cached rt
  match out.1 with
  | .error e => (.error e, evs0 ++ out.2)
  | .ok _ =>
    match cacheDelete with
    | _ => (.ok (), evs0 ++ out.2 ++ [.cacheDeleteAttempted])

/-- DelNetworkList: reads the cached result only when the list version
is at least 0.4.0 (null otherwise), walks the plugins in reverse order,
and deletes the cache entry best effort only on full success. -/
def delNetworkList (delExec : Doc → Except Err Unit)
    (cacheGet : Except Err (Option JVal)) (cacheDelete : Except Err Unit)
    (list : NetworkConfigList) (rt : RuntimeConf) : Except Err Unit × List Event :=
  match greaterThanOrEqualTo list.cniVersion "0.4.0" with
  | .error e => (.error e, [])
  | .ok true =>
    match cacheGet with
    | .error e => (.error (.wrapped "failed to get cached result" e), [.cacheRead])
    | .ok cached => delRun delExec cacheDelete list cached rt [.cacheRead]
  | .ok false => delRun delExec cacheDelete list none rt []

/-- The gRPC ADD response message: a stdout-equivalent byte string and
an error string. -/
structure CNIaddResp where
  stdOut : String
  error : String

/-- The gRPC CHECK and DEL response message: an error string. -/
structure CNIerrResp where
  error : String

/-- The outcome of a unary RPC call: a transport level error or a
response message. -/
inductive RPCOutcome (α : Type) where
  | rpcError (e : Err)
  | rpcOk (resp : α)

/-- The observable behaviour of a gRPC sender: process termination via
log.Fatalf, or a returned value. -/
inductive SendOutcome (α : Type) where
  | fatal (e : Err)
  | ret (v : α)

/-- gRPCsendAdd: an RPC error terminates the process via log.Fatalf
(the return statement after it is unreachable); on RPC success the
stdout string of the response is returned with a nil error. -/
def gRPCsendAdd (rpc : RPCOutcome CNIaddResp) : SendOutcome (Option Err × String) :=
  match rpc with
  | .rpcError e => .fatal e
  | .rpcOk resp => .ret (none, resp.stdOut)

/-- gRPCsendCheck: an RPC error terminates the process via log.Fatalf;
on RPC success the error string of the response is logged and
discarded, and nil is returned. -/
def gRPCsendCheck (rpc : RPCOutcome CNIerrResp) : SendOutcome (Option Err) :=
  match rpc with
  | .rpcError _e => .fatal _e
  | .rpcOk _ => .ret none

/-- gRPCsendDel: an RPC error terminates the process via log.Fatalf; on
RPC success the error string of the response is logged and discarded,
and nil is returned. -/
def gRPCsendDel (rpc : RPCOutcome CNIerrResp) : SendOutcome (Option Err) :=
  match rpc with
  | .rpcError _e => .fatal _e
  | .rpcOk _ => .ret none

/-- A transport that answers every ADD with the result string R. -/
def execR : Doc → Except Err JVal := fun _ => .ok (.str "R")

/-- A CHECK transport that always succeeds. -/
def checkExec0 : Doc → Except Err Unit := fun _ => .ok ()

/-- A DEL transport that always succeeds. -/
def delExecOk : Doc → Except Err Unit := fun _ => .ok ()

/-- A DEL transport that fails exactly on the plugin of type B. -/
def delExecFail : Doc → Except Err Unit := fun d =>
  match getKey d "type" with
  | some (.str s) => if s = "B" then .error (.pluginFailed "boom") else .ok ()
  | _ => .ok ()

/-- A plugin configuration of type A with no declared capabilities. -/
def pluginA : NetworkConfig :=
  { network := { name := "", cniVersion := "", pluginType := "A", capabilities := [] },
    bytes := [("type", JVal.str "A")] }

/-- A plugin configuration of type B with no declared capabilities. -/
def pluginB : NetworkConfig :=
  { network := { name := "", cniVersion := "", pluginType := "B", capabilities := [] },
    bytes := [("type", JVal.str "B")] }

/-- A two plugin chain at version 0.4.0. -/
def list0 : NetworkConfigList :=
  { name := "net1", cniVersion := "0.4.0", disableCheck := false,
    plugins := [pluginA, pluginB] }

/-- A one plugin chain at the pre-CHECK version 0.3.1. -/
def list031 : NetworkConfigList :=
  { name := "net3", cniVersion := "0.3.1", disableCheck := false,
    plugins := [pluginA] }

/-- A chain at version 0.4.0 with CHECK disabled. -/
def listDisabled : NetworkConfigList :=
  { name := "net4", cniVersion := "0.4.0", disableCheck := true,
    plugins := [pluginA] }

/-- A chain at version 0.4.0 with no plugins. -/
def listEmpty : NetworkConfigList :=
  { name := "net0", cniVersion := "0.4.0", disableCheck := false, plugins := [] }

/-- A runtime context with no arguments and the default cache root. -/
def rt0 : RuntimeConf :=
  { containerID := "c1", netNS := "/ns", ifName := "eth0", args := [],
    capabilityArgs := [], cacheDir := "" }

/-- An empty healthy file system. -/
def fs0 : FS := { dirs := [], files := [], ioErr := none }

/-- Version registry operations whose conversion always fails while the
stored version decodes as 0.4.0. -/
def opsCex : VersionOps :=
  { decode := fun _ => .ok "0.4.0",
    newResult := fun _ _ => .ok (.str "stored"),
    getAsVersion := fun _ _ => (none, some (.ioError "no converter")) }

/-- A plugin declaring portMappings enabled and bandwidth disabled. -/
def pluginCaps : NetworkConfig :=
  { network := { name := "", cniVersion := "", pluginType := "C",
                 capabilities := [("portMappings", true), ("bandwidth", false)] },
    bytes := [("type", JVal.str "C"),
      ("capabilities",
        JVal.obj [("portMappings", JVal.bool true), ("bandwidth", JVal.bool false)])] }

/-- A runtime context supplying capability arguments for portMappings,
ipRanges and bandwidth. -/
def rtCaps : RuntimeConf :=
  { containerID := "c1", netNS := "/ns", ifName := "eth0", args := [],
    capabilityArgs := [("portMappings", JVal.str "pm"), ("ipRanges", JVal.str "ir"),
      ("bandwidth", JVal.str "bw")],
    cacheDir := "" }

theorem getKey_setKey_self {α : Type} (m : List (String × α)) (key : String) (v : α) :
    getKey (setKey m key v) key = some v := by
  induction m with
  | nil => simp [setKey, getKey]
  | cons a rest ih =>
    obtain ⟨k, w⟩ := a
    by_cases hk : k = key
    · simp [setKey, hk, ih]
    · simp [setKey, getKey, hk, ih]

theorem getKey_setKey_ne {α : Type} (m : List (String × α)) (key : String) (v : α)
    (k : String) (h : k ≠ key) : getKey (setKey m key v) k = getKey m k := by
  have hne : key ≠ k := fun hkk => h hkk.symm
  induction m with
  | nil => simp [setKey, getKey, hne]
  | cons a rest ih =>
    obtain ⟨k1, w⟩ := a
    by_cases hk : k1 = key
    · simp [setKey, getKey, hk, hne, ih]
    · simp [setKey, getKey, hk, ih]

theorem getKey_injectRuntimeConfig_ne (c : NetworkConfig) (rt : RuntimeConf)
    (k : String) (h : k ≠ "runtimeConfig") :
    getKey (injectRuntimeConfig c rt).bytes k = getKey c.bytes k := by
  unfold injectRuntimeConfig
  cases hrc : (capabilityFilter c.network.capabilities rt.capabilityArgs).isEmpty
  · simp [hrc, injectConf, getKey_setKey_ne _ _ _ _ h]
  · simp [hrc]

theorem buildOneConfig_prevResult_some (n v : String) (p : NetworkConfig) (r : JVal)
    (rt : RuntimeConf) :
    getKey (buildOneConfig n v p (some r) rt).bytes "prevResult" = some r := by
  unfold buildOneConfig
  rw [getKey_injectRuntimeConfig_ne _ _ _ (by decide)]
  simp [injectConf, getKey_setKey_self]

theorem buildOneConfig_prevResult_none (n v : String) (p : NetworkConfig)
    (rt : RuntimeConf) :
    getKey (buildOneConfig n v p none rt).bytes "prevResult" = getKey p.bytes "prevResult" := by
  unfold buildOneConfig
  rw [getKey_injectRuntimeConfig_ne _ _ _ (by decide)]
  simp [injectConf, getKey_setKey_ne _ _ _ _ (by decide : "prevResult" ≠ "cniVersion"),
    getKey_setKey_ne _ _ _ _ (by decide : "prevResult" ≠ "name")]

/-- Claim C7: the derived document handed to a plugin carries the
enclosing list name and cniVersion, regardless of what the plugin
source document declared. -/
theorem buildOneConfig_overrides_name_version (name cniVersion : String)
    (orig : NetworkConfig) (prevResult : Option JVal) (rt : RuntimeConf) :
    getKey (buildOneConfig name cniVersion orig prevResult rt).bytes "name" =
      some (JVal.str name) ∧
    getKey (buildOneConfig name cniVersion orig prevResult rt).bytes "cniVersion" =
      some (JVal.str cniVersion) := by
  unfold buildOneConfig
  rw [getKey_injectRuntimeConfig_ne _ _ _ (by decide : "name" ≠ "runtimeConfig"),
    getKey_injectRuntimeConfig_ne _ _ _ (by decide : "cniVersion" ≠ "runtimeConfig")]
  cases prevResult with
  | none =>
    constructor
    · simp [injectConf, getKey_setKey_ne _ _ _ _ (by decide : "name" ≠ "cniVersion"),
        getKey_setKey_self]
    · simp [injectConf, getKey_setKey_self]
  | some r =>
    constructor
    · simp [injectConf, getKey_setKey_ne _ _ _ _ (by decide : "name" ≠ "prevResult"),
        getKey_setKey_ne _ _ _ _ (by decide : "name" ≠ "cniVersion"), getKey_setKey_self]
    · simp [injectConf, getKey_setKey_ne _ _ _ _ (by decide : "cniVersion" ≠ "prevResult"),
        getKey_setKey_self]

theorem getKey_capabilityFilter_not_mem (caps : List (String × Bool))
    (args : List (String × JVal)) (cap : String) (h : cap ∉ caps.map Prod.fst) :
    getKey (capabilityFilter caps args) cap = none := by
  induction caps with
  | nil => simp [capabilityFilter, getKey]
  | cons a rest ih =>
    obtain ⟨k, b⟩ := a
    simp only [List.map_cons, List.mem_cons] at h
    push_neg at h
    obtain ⟨hk, hrest⟩ := h
    cases b with
    | false => simpa [capabilityFilter] using ih hrest
    | true =>
      cases harg : getKey args k with
      | none => simpa [capabilityFilter, harg] using ih hrest
      | some d =>
        have hkc : k ≠ cap := fun hkk => hk hkk.symm
        simp [capabilityFilter, harg, getKey, hkc, ih hrest]

theorem getKey_capabilityFilter (caps : List (String × Bool))
    (args : List (String × JVal)) (cap : String)
    (hnd : (caps.map Prod.fst).Nodup) :
    getKey (capabilityFilter caps args) cap =
      (match getKey caps cap with
       | some true => getKey args cap
       | _ => none) := by
  induction caps with
  | nil => simp [capabilityFilter, getKey]
  | cons a rest ih =>
    obtain ⟨k, b⟩ := a
    simp only [List.map_cons, List.nodup_cons] at hnd
    obtain ⟨hk, hrest⟩ := hnd
    by_cases hck : k = cap
    · subst hck
      cases b with
      | true =>
        cases harg : getKey args k with
        | some d => simp [capabilityFilter, harg, getKey]
        | none =>
          simp [capabilityFilter, harg, getKey,
            getKey_capabilityFilter_not_mem rest args k hk]
      | false =>
        simp [capabilityFilter, getKey, getKey_capabilityFilter_not_mem rest args k hk]
    · cases b with
      | true =>
        cases harg : getKey args k with
        | some d => simp [capabilityFilter, harg, getKey, hck, ih hrest]
        | none => simp [capabilityFilter, harg, getKey, hck, ih hrest]
      | false => simp [capabilityFilter, getKey, hck, ih hrest]

/-- Claim C2: the runtimeConfig injected for a plugin dispatch holds
exactly the capability arguments whose keys the plugin maps to true in
its capabilities; unknown or disabled keys are dropped without error
(the model is total), and the object is injected exactly when the
intersection is non-empty. -/
theorem injectRuntimeConfig_capability_filtering (c : NetworkConfig) (rt : RuntimeConf)
    (hnd : (c.network.capabilities.map Prod.fst).Nodup) :
    (∀ cap, getKey (capabilityFilter c.network.capabilities rt.capabilityArgs) cap =
      (match getKey c.network.capabilities cap with
       | some true => getKey rt.capabilityArgs cap
       | _ => none)) ∧
    (capabilityFilter c.network.capabilities rt.capabilityArgs = [] →
      injectRuntimeConfig c rt = c) ∧
    (capabilityFilter c.network.capabilities rt.capabilityArgs ≠ [] →
      getKey (injectRuntimeConfig c rt).bytes "runtimeConfig" =
        some (JVal.obj (capabilityFilter c.network.capabilities rt.capabilityArgs))) := by
  refine ⟨fun cap => getKey_capabilityFilter _ _ cap hnd, fun hempty => ?_, fun hne => ?_⟩
  · simp [injectRuntimeConfig, hempty]
  · cases hrc : capabilityFilter c.network.capabilities rt.capabilityArgs with
    | nil => exact absurd hrc hne
    | cons x xs =>
      simp [injectRuntimeConfig, hrc, injectConf, getKey_setKey_self]

/-- Witness for C2 at a concrete plugin and runtime: portMappings is
forwarded, ipRanges (unknown) and bandwidth (disabled) are dropped, and
the non-empty intersection is injected. -/
theorem injectRuntimeConfig_capability_filtering_witness :
    getKey (capabilityFilter pluginCaps.network.capabilities rtCaps.capabilityArgs)
      "portMappings" = some (JVal.str "pm") ∧
    getKey (capabilityFilter pluginCaps.network.capabilities rtCaps.capabilityArgs)
      "ipRanges" = none ∧
    getKey (capabilityFilter pluginCaps.network.capabilities rtCaps.capabilityArgs)
      "bandwidth" = none ∧
    getKey (injectRuntimeConfig pluginCaps rtCaps).bytes "runtimeConfig" =
      some (JVal.obj [("portMappings", JVal.str "pm")]) := by
  have h := injectRuntimeConfig_capability_filtering pluginCaps rtCaps (by decide)
  exact ⟨h.1 "portMappings", h.1 "ipRanges", h.1 "bandwidth",
    h.2.2 (List.cons_ne_nil _ _)⟩

/-- Counterexample for C3: with matching stored and requested versions
and a failing conversion, getCachedResult returns the conversion error
(and the nil result of the failed conversion), not the stored result
with no error. -/
theorem getCachedResult_same_version_error_counterexample :
    getCachedResult opsCex (.ok "cached-bytes") "0.4.0" =
      (none, some (.ioError "no converter")) ∧
    (getCachedResult opsCex (.ok "cached-bytes") "0.4.0").2 ≠ none ∧
    (getCachedResult opsCex (.ok "cached-bytes") "0.4.0").1 ≠ some (JVal.str "stored") := by
  refine ⟨rfl, by decide, ?_⟩
  intro h
  simp [getCachedResult, opsCex] at h

/-- Amended C3: when the stored version equals the requested version
and conversion fails, getCachedResult returns exactly what GetAsVersion
returned together with the conversion error itself, unwrapped; the
error is not suppressed. -/
theorem getCachedResult_same_version_returns_error (ops : VersionOps)
    (data cniVersion : String) (result : JVal) (r2 : Option JVal) (e : Err)
    (h1 : ops.decode data = .ok cniVersion)
    (h2 : ops.newResult cniVersion data = .ok result)
    (h3 : ops.getAsVersion result cniVersion = (r2, some e)) :
    getCachedResult ops (.ok data) cniVersion = (r2, some e) := by
  simp [getCachedResult, h1, h2, h3]

/-- Witness for the amended C3 at the concrete failing registry. -/
theorem getCachedResult_same_version_returns_error_witness :
    getCachedResult opsCex (.ok "cached-bytes") "0.4.0" =
      (none, some (.ioError "no converter")) :=
  getCachedResult_same_version_returns_error opsCex "cached-bytes" "0.4.0"
    (.str "stored") none (.ioError "no converter") rfl rfl rfl

/-- Counterexample for C4: a read failure other than file-not-exist is
also treated as absence: getCachedResult returns null with no error,
not an error. -/
theorem getCachedResult_other_read_error_counterexample :
    getCachedResult opsCex .errOther "0.4.0" = (none, none) ∧
    (getCachedResult opsCex .errOther "0.4.0").2 = none := ⟨rfl, rfl⟩

/-- Amended C4: getCachedResult returns null with no error whenever the
read fails, whether the file is missing or the read fails for any other
reason; no read failure is reported as an error. -/
theorem getCachedResult_read_error_null (ops : VersionOps) (cniVersion : String) :
    getCachedResult ops .errNotExist cniVersion = (none, none) ∧
    getCachedResult ops .errOther cniVersion = (none, none) := ⟨rfl, rfl⟩

/-- Counterexample for C9: on an RPC transport error the gRPC sender
terminates the process via log.Fatalf instead of returning the error,
and on RPC success the error string carried in a CHECK response is
discarded: the dispatch returns success. -/
theorem gRPCsend_error_propagation_counterexample :
    gRPCsendCheck (.rpcOk { error := "plugin reported failure" }) = .ret none ∧
    gRPCsendCheck (.rpcError (.ioError "connection reset")) =
      .fatal (.ioError "connection reset") ∧
    gRPCsendDel (.rpcOk { error := "plugin reported failure" }) = .ret none := ⟨rfl, rfl, rfl⟩

/-- Amended C9: every RPC error makes the transport terminate the
process via log.Fatalf rather than return to the Chain Driver, and on
RPC success the CHECK and DEL senders return success unconditionally,
discarding the error string carried in the response; ADD returns the
response stdout with no error. -/
theorem gRPCsend_behavior :
    (∀ e, gRPCsendAdd (.rpcError e) = .fatal e) ∧
    (∀ resp, gRPCsendAdd (.rpcOk resp) = .ret (none, resp.stdOut)) ∧
    (∀ e, gRPCsendCheck (.rpcError e) = .fatal e) ∧
    (∀ resp, gRPCsendCheck (.rpcOk resp) = .ret none) ∧
    (∀ e, gRPCsendDel (.rpcError e) = .fatal e) ∧
    (∀ resp, gRPCsendDel (.rpcOk resp) = .ret none) :=
  ⟨fun _ => rfl, fun _ => rfl, fun _ => rfl, fun _ => rfl, fun _ => rfl, fun _ => rfl⟩

theorem parseVersion_040 : parseVersion "0.4.0" = some (0, 4, 0) := rfl

/-- Claim C5: a list whose version parses below 0.4.0 makes
CheckNetworkList fail with the version-unsupported error before any
cache read or plugin dispatch, and a list at 0.4.0 or above with CHECK
disabled returns success with no cache read and no dispatch. -/
theorem checkNetworkList_gate :
    (∀ (checkExec : Doc → Except Err Unit) (cacheGet : Except Err (Option JVal))
        (list : NetworkConfigList) (rt : RuntimeConf) (a : Nat × Nat × Nat),
      parseVersion list.cniVersion = some a → versionGE a (0, 4, 0) = false →
      checkNetworkList checkExec cacheGet list rt =
        (.error (.versionUnsupported list.cniVersion), [])) ∧
    (∀ (checkExec : Doc → Except Err Unit) (cacheGet : Except Err (Option JVal))
        (list : NetworkConfigList) (rt : RuntimeConf),
      greaterThanOrEqualTo list.cniVersion "0.4.0" = .ok true →
      list.disableCheck = true →
      checkNetworkList checkExec cacheGet list rt = (.ok (), [])) := by
  constructor
  · intro checkExec cacheGet list rt a ha hlt
    have hgte : greaterThanOrEqualTo list.cniVersion "0.4.0" = .ok false := by
      simp [greaterThanOrEqualTo, ha, parseVersion_040, hlt]
    simp [checkNetworkList, hgte]
  · intro checkExec cacheGet list rt hgte hdis
    simp [checkNetworkList, hgte, hdis]

/-- Witness for C5: the gate fires at version 0.3.1 and the disabled
CHECK short-circuits at version 0.4.0, both with empty traces. -/
theorem checkNetworkList_gate_witness :
    checkNetworkList checkExec0 (.ok none) list031 rt0 =
      (.error (.versionUnsupported "0.3.1"), []) ∧
    checkNetworkList checkExec0 (.ok none) listDisabled rt0 = (.ok (), []) :=
  ⟨checkNetworkList_gate.1 checkExec0 (.ok none) list031 rt0 (0, 3, 1) rfl rfl,
   checkNetworkList_gate.2 checkExec0 (.ok none) listDisabled rt0 rfl rfl⟩

theorem delLoop_all_ok (delExec : Doc → Except Err Unit) (n v : String)
    (cached : Option JVal) (rt : RuntimeConf) :
    ∀ plugins : List NetworkConfig,
      (∀ p ∈ plugins, delExec (buildOneConfig n v p cached rt).bytes = .ok ()) →
      delLoop delExec n v plugins cached rt =
        (.ok (), plugins.map (fun p =>
          .dispatched "DEL" (buildOneConfig n v p cached rt).bytes cached)) := by
  intro plugins
  induction plugins with
  | nil => intro _; rfl
  | cons net rest ih =>
    intro hall
    have hnet := hall net (List.mem_cons_self net rest)
    have hrest := ih (fun p hp => hall p (List.mem_cons_of_mem net hp))
    simp [delLoop, hnet, hrest]

theorem delLoop_first_error (delExec : Doc → Except Err Unit) (n v : String)
    (cached : Option JVal) (rt : RuntimeConf) (q : NetworkConfig)
    (post : List NetworkConfig) (e : Err)
    (hq : delExec (buildOneConfig n v q cached rt).bytes = .error e) :
    ∀ pre : List NetworkConfig,
      (∀ p ∈ pre, delExec (buildOneConfig n v p cached rt).bytes = .ok ()) →
      delLoop delExec n v (pre ++ q :: post) cached rt =
        (.error e, pre.map (fun p =>
          .dispatched "DEL" (buildOneConfig n v p cached rt).bytes cached) ++
          [.dispatched "DEL" (buildOneConfig n v q cached rt).bytes cached]) := by
  intro pre
  induction pre with
  | nil => intro _; simp [delLoop, hq]
  | cons net rest ih =>
    intro hall
    have hnet := hall net (List.mem_cons_self net rest)
    have hrest := ih (fun p hp => hall p (List.mem_cons_of_mem net hp))
    simp [delLoop, hnet, hrest]

/-- Claim C6: DelNetworkList dispatches DEL in exactly reverse list
order with the cached result (read only at version at least 0.4.0,
null otherwise) as the previous result for every plugin; the first
plugin error aborts the walk with no cache delete attempt; and only on
full success is the cache delete attempted, its own outcome being
ignored (the conclusion holds for every cacheDelete outcome). -/
theorem delNetworkList_reverse_order :
    (∀ (delExec : Doc → Except Err Unit) (cacheGet : Except Err (Option JVal))
        (cacheDelete : Except Err Unit) (list : NetworkConfigList) (rt : RuntimeConf)
        (cached : Option JVal),
      greaterThanOrEqualTo list.cniVersion "0.4.0" = .ok true →
      cacheGet = .ok cached →
      (∀ p ∈ list.plugins,
        delExec (buildOneConfig list.name list.cniVersion p cached rt).bytes = .ok ()) →
      delNetworkList delExec cacheGet cacheDelete list rt =
        (.ok (), .cacheRead :: (list.plugins.reverse.map (fun p =>
          .dispatched "DEL" (buildOneConfig list.name list.cniVersion p cached rt).bytes
            cached) ++ [.cacheDeleteAttempted]))) ∧
    (∀ (delExec : Doc → Except Err Unit) (cacheGet : Except Err (Option JVal))
        (cacheDelete : Except Err Unit) (list : NetworkConfigList) (rt : RuntimeConf)
        (cached : Option JVal) (pre : List NetworkConfig) (q : NetworkConfig)
        (post : List NetworkConfig) (e : Err),
      greaterThanOrEqualTo list.cniVersion "0.4.0" = .ok true →
      cacheGet = .ok cached →
      list.plugins.reverse = pre ++ q :: post →
      (∀ p ∈ pre,
        delExec (buildOneConfig list.name list.cniVersion p cached rt).bytes = .ok ()) →
      delExec (buildOneConfig list.name list.cniVersion q cached rt).bytes = .error e →
      delNetworkList delExec cacheGet cacheDelete list rt =
        (.error e, .cacheRead :: (pre.map (fun p =>
          .dispatched "DEL" (buildOneConfig list.name list.cniVersion p cached rt).bytes
            cached) ++
          [.dispatched "DEL" (buildOneConfig list.name list.cniVersion q cached rt).bytes
            cached]))) ∧
    (∀ (delExec : Doc → Except Err Unit) (cacheGet : Except Err (Option JVal))
        (cacheDelete : Except Err Unit) (list : NetworkConfigList) (rt : RuntimeConf),
      greaterThanOrEqualTo list.cniVersion "0.4.0" = .ok false →
      (∀ p ∈ list.plugins,
        delExec (buildOneConfig list.name list.cniVersion p none rt).bytes = .ok ()) →
      delNetworkList delExec cacheGet cacheDelete list rt =
        (.ok (), list.plugins.reverse.map (fun p =>
          .dispatched "DEL" (buildOneConfig list.name list.cniVersion p none rt).bytes
            none) ++ [.cacheDeleteAttempted])) := by
  refine ⟨?_, ?_, ?_⟩
  · intro delExec cacheGet cacheDelete list rt cached hgte hcg hall
    have hall2 : ∀ p ∈ list.plugins.reverse,
        delExec (buildOneConfig list.name list.cniVersion p cached rt).bytes = .ok () :=
      fun p hp => hall p (List.mem_reverse.mp hp)
    have hloop := delLoop_all_ok delExec list.name list.cniVersion cached rt
      list.plugins.reverse hall2
    simp [delNetworkList, hgte, hcg, delRun, hloop]
  · intro delExec cacheGet cacheDelete list rt cached pre q post e hgte hcg hsplit hpre hq
    have hloop := delLoop_first_error delExec list.name list.cniVersion cached rt q post e
      hq pre hpre
    simp [delNetworkList, hgte, hcg, delRun, hsplit, hloop]
  · intro delExec cacheGet cacheDelete list rt hgte hall
    have hall2 : ∀ p ∈ list.plugins.reverse,
        delExec (buildOneConfig list.name list.cniVersion p none rt).bytes = .ok () :=
      fun p hp => hall p (List.mem_reverse.mp hp)
    have hloop := delLoop_all_ok delExec list.name list.cniVersion none rt
      list.plugins.reverse hall2
    simp [delNetworkList, hgte, delRun, hloop]

/-- Witness for C6 at concrete chains: a successful run visits B then A
with the cached result and attempts the cache delete even though the
delete fails; a failing first DEL (on B) stops before A with no delete
attempt; and a pre-0.4.0 list is walked with a null previous result and
no cache read. -/
theorem delNetworkList_reverse_order_witness :
    delNetworkList delExecOk (.ok (some (.str "R"))) (.error (.ioError "rm failed"))
      list0 rt0 =
      (.ok (), [.cacheRead,
        .dispatched "DEL" [("type", JVal.str "B"), ("name", JVal.str "net1"),
          ("cniVersion", JVal.str "0.4.0"), ("prevResult", JVal.str "R")]
          (some (JVal.str "R")),
        .dispatched "DEL" [("type", JVal.str "A"), ("name", JVal.str "net1"),
          ("cniVersion", JVal.str "0.4.0"), ("prevResult", JVal.str "R")]
          (some (JVal.str "R")),
        .cacheDeleteAttempted]) ∧
    delNetworkList delExecFail (.ok (some (.str "R"))) (.ok ()) list0 rt0 =
      (.error (.pluginFailed "boom"), [.cacheRead,
        .dispatched "DEL" [("type", JVal.str "B"), ("name", JVal.str "net1"),
          ("cniVersion", JVal.str "0.4.0"), ("prevResult", JVal.str "R")]
          (some (JVal.str "R"))]) ∧
    delNetworkList delExecOk (.error (.ioError "unused")) (.ok ()) list031 rt0 =
      (.ok (), [.dispatched "DEL" [("type", JVal.str "A"), ("name", JVal.str "net3"),
        ("cniVersion", JVal.str "0.3.1")] none, .cacheDeleteAttempted]) := by
  refine ⟨?_, ?_, ?_⟩
  · exact delNetworkList_reverse_order.1 delExecOk (.ok (some (.str "R")))
      (.error (.ioError "rm failed")) list0 rt0 (some (.str "R")) rfl rfl
      (fun p _ => rfl)
  · exact delNetworkList_reverse_order.2.1 delExecFail (.ok (some (.str "R")))
      (.ok ()) list0 rt0 (some (.str "R")) [] pluginB [pluginA]
      (.pluginFailed "boom") rfl rfl rfl (fun p hp => absurd hp (List.not_mem_nil p)) rfl
  · exact delNetworkList_reverse_order.2.2 delExecOk (.error (.ioError "unused"))
      (.ok ()) list031 rt0 rfl (fun p _ => rfl)

theorem setCachedResult_ok (fs : FS) (result : Option JVal) (netName : String)
    (rt : RuntimeConf) (hio : fs.ioErr = none) :
    ∃ fs2, setCachedResult fs result netName rt = .ok fs2 ∧
      getKey fs2.files (getResultCacheFilePath netName rt) =
        some (marshalResult result,
          match getKey fs.files (getResultCacheFilePath netName rt) with
          | some fm => fm.2
          | none => 0o600) ∧
      getKey fs2.dirs (dirOf (getResultCacheFilePath netName rt)) =
        some (match getKey fs.dirs (dirOf (getResultCacheFilePath netName rt)) with
          | some m => m
          | none => 0o700) := by
  cases hdir : getKey fs.dirs (dirOf (getResultCacheFilePath netName rt)) with
  | some m =>
    cases hfile : getKey fs.files (getResultCacheFilePath netName rt) with
    | some fm =>
      refine ⟨{ fs with files := setKey fs.files (getResultCacheFilePath netName rt) (marshalResult result, fm.2) }, ?_, ?_, ?_⟩
      · simp [setCachedResult, mkdirAll, writeFileFS, hio, hdir, hfile]
      · simp [getKey_setKey_self]
      · simp [hdir]
    | none =>
      refine ⟨{ fs with files := setKey fs.files (getResultCacheFilePath netName rt) (marshalResult result, 0o600) }, ?_, ?_, ?_⟩
      · simp [setCachedResult, mkdirAll, writeFileFS, hio, hdir, hfile]
      · simp [getKey_setKey_self]
      · simp [hdir]
  | none =>
    cases hfile : getKey fs.files (getResultCacheFilePath netName rt) with
    | some fm =>
      refine ⟨{ fs with dirs := setKey fs.dirs (dirOf (getResultCacheFilePath netName rt)) 0o700, files := setKey fs.files (getResultCacheFilePath netName rt) (marshalResult result, fm.2) }, ?_, ?_, ?_⟩
      · simp [setCachedResult, mkdirAll, writeFileFS, hio, hdir, hfile]
      · simp [getKey_setKey_self]
      · simp [getKey_setKey_self]
    | none =>
      refine ⟨{ fs with dirs := setKey fs.dirs (dirOf (getResultCacheFilePath netName rt)) 0o700, files := setKey fs.files (getResultCacheFilePath netName rt) (marshalResult result, 0o600) }, ?_, ?_, ?_⟩
      · simp [setCachedResult, mkdirAll, writeFileFS, hio, hdir, hfile]
      · simp [getKey_setKey_self]
      · simp [getKey_setKey_self]

/-- Claim C8: the cache key is the deterministic path
cacheRoot/results/netName-containerID-ifName with the default root
/var/lib/cni, and a cache write serializes the result, creates the
missing parent directory with mode 0700, and writes the file with mode
0600, overwriting any existing data at that path (an existing file
keeps the mode it was created with, per WriteFile semantics). -/
theorem setCachedResult_cache_layout (fs : FS) (result : Option JVal)
    (netName : String) (rt : RuntimeConf) (hio : fs.ioErr = none) :
    getResultCacheFilePath netName rt =
      (if rt.cacheDir = "" then CacheDir else rt.cacheDir) ++ "/results/" ++ netName ++
        "-" ++ rt.containerID ++ "-" ++ rt.ifName ∧
    ∃ fs2, setCachedResult fs result netName rt = .ok fs2 ∧
      getKey fs2.files (getResultCacheFilePath netName rt) =
        some (marshalResult result,
          match getKey fs.files (getResultCacheFilePath netName rt) with
          | some fm => fm.2
          | none => 0o600) ∧
      getKey fs2.dirs (dirOf (getResultCacheFilePath netName rt)) =
        some (match getKey fs.dirs (dirOf (getResultCacheFilePath netName rt)) with
          | some m => m
          | none => 0o700) :=
  ⟨rfl, setCachedResult_ok fs result netName rt hio⟩

/-- Witness for C8 on the empty file system with the default cache
root: the file lands at /var/lib/cni/results/net1-c1-eth0 with mode
0600 and the results directory is created with mode 0700. -/
theorem setCachedResult_cache_layout_witness :
    getResultCacheFilePath "net1" rt0 =
      (if rt0.cacheDir = "" then CacheDir else rt0.cacheDir) ++ "/results/" ++ "net1" ++
        "-" ++ rt0.containerID ++ "-" ++ rt0.ifName ∧
    ∃ fs2, setCachedResult fs0 (some (.str "R")) "net1" rt0 = .ok fs2 ∧
      getKey fs2.files (getResultCacheFilePath "net1" rt0) =
        some (marshalResult (some (.str "R")),
          match getKey fs0.files (getResultCacheFilePath "net1" rt0) with
          | some fm => fm.2
          | none => 0o600) ∧
      getKey fs2.dirs (dirOf (getResultCacheFilePath "net1" rt0)) =
        some (match getKey fs0.dirs (dirOf (getResultCacheFilePath "net1" rt0)) with
          | some m => m
          | none => 0o700) :=
  setCachedResult_cache_layout fs0 (some (.str "R")) "net1" rt0 rfl

/-- Claim C10: AddNetworkList on an empty plugin sequence dispatches
nothing, writes the serialization of the nil result (the bytes null) to
the cache file for the list name, and returns a null result with no
error when the cache write succeeds. -/
theorem addNetworkList_empty_plugins (exec : Doc → Except Err JVal)
    (list : NetworkConfigList) (rt : RuntimeConf) (fs : FS)
    (hp : list.plugins = []) (hio : fs.ioErr = none) :
    ∃ fs2, addNetworkList exec list rt fs = (.ok none, fs2, []) ∧
      ∃ m, getKey fs2.files (getResultCacheFilePath list.name rt) = some ("null", m) := by
  obtain ⟨fs2, hset, hfile, _⟩ := setCachedResult_ok fs none list.name rt hio
  refine ⟨fs2, ?_, ?_⟩
  · simp [addNetworkList, hp, addLoop, hset]
  · exact ⟨_, hfile⟩

/-- Witness for C10 at the concrete empty chain on the empty healthy
file system. -/
theorem addNetworkList_empty_plugins_witness :
    ∃ fs2, addNetworkList execR listEmpty rt0 fs0 = (.ok none, fs2, []) ∧
      ∃ m, getKey fs2.files (getResultCacheFilePath "net0" rt0) = some ("null", m) :=
  addNetworkList_empty_plugins execR listEmpty rt0 fs0 rfl rfl

theorem addNetworkList_events (exec : Doc → Except Err JVal) (list : NetworkConfigList)
    (rt : RuntimeConf) (fs : FS) :
    (addNetworkList exec list rt fs).2.2 =
      (addLoop exec list.name list.cniVersion list.plugins none rt).2 := by
  unfold addNetworkList
  cases hout : addLoop exec list.name list.cniVersion list.plugins none rt with
  | mk res evs =>
    cases res with
    | error e => rfl
    | ok result =>
      cases hset : setCachedResult fs result list.name rt with
      | error e => simp [hset]
      | ok fs2 => simp [hset]

theorem addLoop_docs (exec : Doc → Except Err JVal) (n v : String) (rt : RuntimeConf) :
    ∀ (plugins : List NetworkConfig) (prev : Option JVal),
      (plugins = [] → dispatchDocs (addLoop exec n v plugins prev rt).2 = []) ∧
      (∀ p, plugins.head? = some p →
        (dispatchDocs (addLoop exec n v plugins prev rt).2)[0]? =
          some (buildOneConfig n v p prev rt).bytes) ∧
      (∀ i di dj, (dispatchDocs (addLoop exec n v plugins prev rt).2)[i]? = some di →
        (dispatchDocs (addLoop exec n v plugins prev rt).2)[i + 1]? = some dj →
        ∃ r, exec di = .ok r ∧ getKey dj "prevResult" = some r) := by
  intro plugins
  induction plugins with
  | nil =>
    intro prev
    refine ⟨fun _ => rfl, fun p hp => by simp at hp, fun i di dj h1 _ => ?_⟩
    simp [addLoop, dispatchDocs] at h1
  | cons net rest ih =>
    intro prev
    cases hexec : exec (buildOneConfig n v net prev rt).bytes with
    | error e =>
      refine ⟨fun h => absurd h (List.cons_ne_nil net rest), fun p hp => ?_,
        fun i di dj h1 h2 => ?_⟩
      · have hp2 : p = net := by simpa using hp.symm
        subst hp2
        simp [addLoop, hexec, dispatchDocs]
      · simp only [addLoop, hexec, dispatchDocs, List.filterMap] at h2
        rw [List.getElem?_cons_succ, List.getElem?_nil] at h2
        cases h2
    | ok r =>
      have ihr := ih (some r)
      refine ⟨fun h => absurd h (List.cons_ne_nil net rest), fun p hp => ?_,
        fun i di dj h1 h2 => ?_⟩
      · have hp2 : p = net := by simpa using hp.symm
        subst hp2
        simp [addLoop, hexec, dispatchDocs]
      · have hshape : dispatchDocs (addLoop exec n v (net :: rest) prev rt).2 =
            (buildOneConfig n v net prev rt).bytes ::
              dispatchDocs (addLoop exec n v rest (some r) rt).2 := by
          simp [addLoop, hexec, dispatchDocs]
        rw [hshape] at h1 h2
        cases i with
        | zero =>
          rw [List.getElem?_cons_zero] at h1
          rw [List.getElem?_cons_succ] at h2
          cases rest with
          | nil =>
            rw [ihr.1 rfl, List.getElem?_nil] at h2
            cases h2
          | cons q qs =>
            have hq := ihr.2.1 q rfl
            rw [h2] at hq
            have hdj : dj = (buildOneConfig n v q (some r) rt).bytes :=
              Option.some.inj hq
            refine ⟨r, ?_, ?_⟩
            · rw [(Option.some.inj h1).symm]
              exact hexec
            · rw [hdj]
              exact buildOneConfig_prevResult_some n v q r rt
        | succ m =>
          rw [List.getElem?_cons_succ] at h1 h2
          exact ihr.2.2 m di dj h1 h2

/-- Claim C1: in an AddNetworkList run the dispatched documents thread
the results forward: whenever the original first plugin document has no
prevResult field, the first derived document has none either (prev is
null), and every later derived document carries a prevResult equal to
the result the transport returned for the document dispatched just
before it. -/
theorem addNetworkList_threads_prevResult (exec : Doc → Except Err JVal)
    (list : NetworkConfigList) (rt : RuntimeConf) (fs : FS) :
    (∀ p d0, list.plugins.head? = some p → getKey p.bytes "prevResult" = none →
      (addTrace exec list rt fs)[0]? = some d0 → getKey d0 "prevResult" = none) ∧
    (∀ i di dj, (addTrace exec list rt fs)[i]? = some di →
      (addTrace exec list rt fs)[i + 1]? = some dj →
      ∃ r, exec di = .ok r ∧ getKey dj "prevResult" = some r) := by
  have hev : addTrace exec list rt fs =
      dispatchDocs (addLoop exec list.name list.cniVersion list.plugins none rt).2 := by
    unfold addTrace
    rw [addNetworkList_events]
  have h := addLoop_docs exec list.name list.cniVersion rt list.plugins none
  constructor
  · intro p d0 hp hnone h0
    rw [hev] at h0
    have hb := h.2.1 p hp
    rw [h0] at hb
    have hd0 : d0 = (buildOneConfig list.name list.cniVersion p none rt).bytes :=
      Option.some.inj hb
    rw [hd0, buildOneConfig_prevResult_none]
    exact hnone
  · intro i di dj h1 h2
    rw [hev] at h1 h2
    exact h.2.2 i di dj h1 h2

/-- Witness for C1 on the concrete two plugin chain: the document for A
carries no prevResult, and the document for B carries the result R that
the transport returned for the document of A. -/
theorem addNetworkList_threads_prevResult_witness :
    getKey [("type", JVal.str "A"), ("name", JVal.str "net1"),
      ("cniVersion", JVal.str "0.4.0")] "prevResult" = none ∧
    ∃ r, execR [("type", JVal.str "A"), ("name", JVal.str "net1"),
        ("cniVersion", JVal.str "0.4.0")] = .ok r ∧
      getKey [("type", JVal.str "B"), ("name", JVal.str "net1"),
        ("cniVersion", JVal.str "0.4.0"), ("prevResult", JVal.str "R")] "prevResult" =
        some r := by
  have h := addNetworkList_threads_prevResult execR list0 rt0 fs0
  exact ⟨h.1 pluginA _ rfl rfl rfl, h.2 0 _ _ rfl rfl⟩
